import Mathlib

/-!
Shallow embedding of jkroepke/kube-webhook-certgen.

The repository has two operations:
  create : generate a self-signed CA plus leaf certificate and store them in a
           Kubernetes Secret (pkg/certs, cmd/create.go, k8s.SaveCertsToSecret);
  patch  : read the CA from that Secret and patch the caBundle (and optionally
           failurePolicy) of ValidatingWebhookConfiguration,
           MutatingWebhookConfiguration and APIService objects
           (cmd/patch.go, k8s.PatchObjects and helpers).

The embedding below translates the Go sources.  Go byte slices become
`Option (List Nat)` (`none` models a nil slice), Go maps become association
lists with insertion-order-preserving overwrite, the Kubernetes API server
becomes an explicit in-memory `Cluster` record threaded through the patching
functions, and every network round trip is recorded in a `NetOp` trace so that
ordering and abort behaviour can be stated.  Cryptographic randomness (serial
numbers, keys) and the wall clock are passed in as parameters; the standard
library IP parser consulted by GenerateCerts is likewise a parameter, since it
is external library code and the claims only concern how its verdict is used.
-/

set_option autoImplicit false

namespace KubeWebhookCertgen

/-- Contents of a non-nil Go byte slice. -/
abbrev Bytes := List Nat

/-- Model of a Go byte slice value; `none` models a nil slice. -/
abbrev GoBytes := Option Bytes

/-- Lookup in an association list modelling a Go map (first binding wins;
maps built with `setA` keep keys unique). -/
def lookupA {K V : Type} [DecidableEq K] : List (K × V) → K → Option V
  | [], _ => none
  | (k', v) :: rest, k => if k = k' then some v else lookupA rest k

/-- Go map assignment: overwrite the binding in place if the key is present,
append it otherwise. -/
def setA {K V : Type} [DecidableEq K] : List (K × V) → K → V → List (K × V)
  | [], k, v => [(k, v)]
  | (k', v') :: rest, k, v =>
    if k = k' then (k, v) :: rest else (k', v') :: setA rest k v

/-- Read of a Go map of type map[string][]byte: a missing key reads as the
zero value nil, exactly like a stored nil slice does. -/
def goGet (m : List (String × GoBytes)) (k : String) : GoBytes :=
  match lookupA m k with
  | none => none
  | some v => v

/-! ## Go time durations (pkg/certs GenerateCerts, part_001 lines 177-178)

Go time.Duration counts nanoseconds; instants are modelled as integer
nanosecond counts. -/

namespace GoTime

def nanosecond : Int := 1

def microsecond : Int := 1000 * nanosecond

def millisecond : Int := 1000 * microsecond

def second : Int := 1000 * millisecond

def minute : Int := 60 * second

def hour : Int := 60 * minute

end GoTime

/-- Fields of the x509.Certificate templates that GenerateCerts fills in
(part_001 lines 192-242).  The cryptographic signing and PEM encoding steps
are outside the embedding; the claims concern only these template fields. -/
structure CertTemplate where
  serialNumber : Nat
  notBefore : Int
  notAfter : Int
  keyUsage : List String
  extKeyUsage : List String
  basicConstraintsValid : Bool
  isCA : Bool
  subjectOrganization : List String
  ipAddresses : List Bytes
  dnsNames : List String
  deriving DecidableEq

/-- Splitting a character list at every comma, keeping empty tokens; the
char-list core of strings.SplitSeq(hosts, ",").  Splitting the empty string
yields one empty token, as in Go. -/
def splitCommaChars : List Char → List (List Char)
  | [] => [[]]
  | c :: rest =>
    if c = ',' then [] :: splitCommaChars rest
    else
      match splitCommaChars rest with
      | [] => [[c]]
      | t :: ts => (c :: t) :: ts

/-- Model of strings.SplitSeq(hosts, ",") from the Go standard library,
specialised to the one-character separator the source uses. -/
def splitSeqComma (s : String) : List String :=
  (splitCommaChars s.data).map (fun l => String.mk l)

/-- Host-list loop of GenerateCerts (part_001 lines 236-242): iterate over the
comma-separated tokens of hosts, appending each token parsed as an IP to the
IP-address list and every other token verbatim to the DNS-name list.
parseIP stands for net.ParseIP (external library code). -/
def hostSANs (parseIP : String → Option Bytes) (hosts : String) :
    List Bytes × List String :=
  (splitSeqComma hosts).foldl
    (fun acc host =>
      match parseIP host with
      | some ip => (acc.1 ++ [ip], acc.2)
      | none => (acc.1, acc.2 ++ [host]))
    ([], [])

/-- GenerateCerts (part_001 lines 176-252), restricted to the certificate
template data.  now is the wall-clock reading, serialCA and serialLeaf the two
random 128-bit serial numbers, parseIP the standard library IP parser.  The
returned pair is (CA template, leaf template). -/
def GenerateCerts (parseIP : String → Option Bytes) (now : Int)
    (serialCA serialLeaf : Nat) (hosts : String) :
    CertTemplate × CertTemplate :=
  let notBefore := now - 5 * GoTime.minute
  let notAfter := notBefore + 100 * 365 * 24 * GoTime.hour
  let rootTemplate : CertTemplate :=
    { serialNumber := serialCA
      notBefore := notBefore
      notAfter := notAfter
      keyUsage := ["CertSign"]
      extKeyUsage := ["ServerAuth"]
      basicConstraintsValid := true
      isCA := true
      subjectOrganization := ["nil1"]
      ipAddresses := []
      dnsNames := [] }
  let sans := hostSANs parseIP hosts
  let leafTemplate : CertTemplate :=
    { serialNumber := serialLeaf
      notBefore := notBefore
      notAfter := notAfter
      keyUsage := ["DigitalSignature", "KeyEncipherment"]
      extKeyUsage := ["ServerAuth"]
      basicConstraintsValid := true
      isCA := false
      subjectOrganization := ["nil2"]
      ipAddresses := sans.1
      dnsNames := sans.2 }
  (rootTemplate, leafTemplate)

/-! ## Secret store (pkg/k8s/k8s.go, current revision after the separator) -/

/-- Kubernetes Secret as used by the tool: name, type tag and the data map. -/
structure Secret where
  name : String
  secretType : String
  data : List (String × GoBytes)
  deriving DecidableEq

/-- Outcome of the clientSet Secrets Get call consulted by GetCaFromSecret:
the secret, a NotFound error, or any other API error. -/
inductive FetchErr where
  | notFound
  | other (msg : String)
  deriving DecidableEq

/-- Errors of GetCaFromSecret: the distinguished ErrNoSecret signal, a wrapped
transport error, or the hard error for a present secret without a ca.crt key. -/
inductive GetCaErr where
  | noSecret
  | getError (msg : String)
  | noCaKey
  deriving DecidableEq

/-- GetCaFromSecret (k8s.go lines 355-376), parameterised by the result of the
Secrets Get network call.  A NotFound error becomes ErrNoSecret; any other Get
error is wrapped; a fetched secret is probed for the fixed key ca.crt, whose
absence (a nil read from the data map) is a hard error distinct from
ErrNoSecret. -/
def GetCaFromSecret (fetch : Except FetchErr Secret) : Except GetCaErr Bytes :=
  match fetch with
  | .error .notFound => .error .noSecret
  | .error (.other msg) => .error (.getError ("error getting secret: " ++ msg))
  | .ok secret =>
    match goGet secret.data "ca.crt" with
    | none => .error .noCaKey
    | some data => .ok data

/-- Secret read as performed for the Patcher interface of cmd/patch.go.  The
interface (cmd/patch.go line 37) declares a caName parameter and the Patch
function passes cfg.CaName (cmd/patch.go line 61), but the one implementation
wired in by patchCommand is k8s.K8s.GetCaFromSecret, which takes no field-key
parameter and always consults the fixed key ca.crt; the supplied caName is
therefore dropped. -/
def patcherGetCaFromSecret (_caName : String) (fetch : Except FetchErr Secret) :
    Except GetCaErr Bytes :=
  GetCaFromSecret fetch

/-- In-memory secret store keyed by (namespace, secret name). -/
abbrev SecretStore := List ((String × String) × Secret)

/-- Lookup of the Secrets Get call against the in-memory store. -/
def getSecretFromStore (store : SecretStore) (secretName ns : String) :
    Except FetchErr Secret :=
  match lookupA store (ns, secretName) with
  | none => .error .notFound
  | some s => .ok s

/-- Data map literal of SaveCertsToSecret (k8s.go lines 463-467): entries are
inserted in the order written — ca.crt first, then the caller-chosen cert
name, then the caller-chosen key name — with a later key overwriting an
earlier equal one, exactly as a Go map literal with duplicate runtime keys
behaves. -/
def saveSecretData (certName keyName : String) (ca cert key : Bytes) :
    List (String × GoBytes) :=
  setA (setA (setA [] "ca.crt" (some ca)) certName (some cert)) keyName (some key)

/-- SaveCertsToSecret (k8s.go lines 452-478): builds the secret and issues a
Create call, which fails when an object with the same key already exists
(create semantics, not upsert). -/
def SaveCertsToSecret (store : SecretStore)
    (secretName secretType ns certName keyName : String)
    (ca cert key : Bytes) : SecretStore × Except String Unit :=
  match lookupA store (ns, secretName) with
  | some _ => (store, .error "error creating secret: secrets already exists")
  | none =>
    (setA store (ns, secretName)
      { name := secretName
        secretType := secretType
        data := saveSecretData certName keyName ca cert key },
     .ok ())

/-! ## The create command (part_003 createCommand, lines 22-56) -/

/-- Flags of the create command (part_003 init, lines 58-70). -/
structure CreateConfig where
  host : String
  secretName : String
  secretType : String
  ns : String
  certName : String
  keyName : String
  deriving DecidableEq

/-- PEM outputs of a successful GenerateCerts call, whose bytes createCommand
stores; generation is randomised, so the triple is a parameter. -/
structure GeneratedCerts where
  ca : Bytes
  cert : Bytes
  key : Bytes
  deriving DecidableEq

/-- What createCommand logs on its success paths. -/
inductive CreateReport where
  | createdNewSecret
  | secretAlreadyExists
  deriving DecidableEq

/-- Failure modes of createCommand. -/
inductive CreateErr where
  | generateFailed (msg : String)
  | saveFailed (msg : String)
  | getFailed (e : GetCaErr)
  deriving DecidableEq

/-- Wrapper of GetCaFromSecret reading against the in-memory store. -/
def getCaFromStore (store : SecretStore) (secretName ns : String) :
    Except GetCaErr Bytes :=
  GetCaFromSecret (getSecretFromStore store secretName ns)

/-- createCommand (part_003 lines 22-56): probe the secret; on the
distinguished ErrNoSecret signal generate certificates and create the secret;
on any other error fail; when the probe succeeds, log that the secret already
exists and exit successfully without writing.  The function returns the
resulting store together with the command outcome. -/
def createCommand (store : SecretStore) (cfg : CreateConfig)
    (gen : Except String GeneratedCerts) :
    SecretStore × Except CreateErr CreateReport :=
  match getCaFromStore store cfg.secretName cfg.ns with
  | .error .noSecret =>
    match gen with
    | .error msg => (store, .error (.generateFailed msg))
    | .ok g =>
      match SaveCertsToSecret store cfg.secretName cfg.secretType cfg.ns
          cfg.certName cfg.keyName g.ca g.cert g.key with
      | (store', .error msg) => (store', .error (.saveFailed msg))
      | (store', .ok ()) => (store', .ok .createdNewSecret)
  | .error e => (store, .error (.getFailed e))
  | .ok _ => (store, .ok .secretAlreadyExists)

/-! ## Webhook configurations, APIServices and the patching functions
(pkg/k8s/k8s.go, current revision)

The type parameters α, β, γ, δ stand for the webhook-entry fields the tool
never touches: α the client-config fields other than the CA bundle (url,
service reference), β the remaining entry fields (rules, side effects,
admission review versions, selectors, timeout), γ the configuration-level
metadata other than its name, δ the APIService spec fields other than
caBundle and insecureSkipTLSVerify. -/

/-- Client config of one webhook entry; only caBundle is ever written. -/
structure WebhookClientConfig (α : Type) where
  caBundle : GoBytes
  rest : α
  deriving DecidableEq

/-- One webhook entry of a configuration. -/
structure WebhookEntry (α β : Type) where
  name : String
  clientConfig : WebhookClientConfig α
  failurePolicy : Option String
  rest : β
  deriving DecidableEq

/-- A ValidatingWebhookConfiguration or MutatingWebhookConfiguration object. -/
structure WebhookConfiguration (α β γ : Type) where
  name : String
  webhooks : List (WebhookEntry α β)
  rest : γ
  deriving DecidableEq

/-- An APIService object, as far as patchAPIService touches it. -/
structure APIService (δ : Type) where
  caBundle : GoBytes
  insecureSkipTLSVerify : Bool
  rest : δ
  deriving DecidableEq

/-- The cluster objects the patch command can reach, each kind keyed by
object name. -/
structure Cluster (α β γ δ : Type) where
  validating : List (String × WebhookConfiguration α β γ)
  mutating : List (String × WebhookConfiguration α β γ)
  apiServices : List (String × APIService δ)
  deriving DecidableEq

/-- PatchOptions (k8s.go lines 340-347).  FailurePolicyType is a string whose
empty value means "leave the failure policy unchanged". -/
structure PatchOptions where
  validatingWebhookConfigurationName : String
  mutatingWebhookConfigurationName : String
  apiServiceName : String
  patchMethod : String
  failurePolicyType : String
  caBundle : Bytes
  deriving DecidableEq

/-- Which resource kind a network operation or an error belongs to. -/
inductive StepKind where
  | api
  | val
  | mut
  deriving DecidableEq

/-- One network round trip issued by the patching code. -/
inductive NetOp where
  | getAPIService
  | updateAPIService
  | getValidating
  | updateValidating
  | applyValidating
  | getMutating
  | updateMutating
  | applyMutating
  deriving DecidableEq

/-- Resource kind touched by a network operation. -/
def NetOp.kind : NetOp → StepKind
  | .getAPIService => .api
  | .updateAPIService => .api
  | .getValidating => .val
  | .updateValidating => .val
  | .applyValidating => .val
  | .getMutating => .mut
  | .updateMutating => .mut
  | .applyMutating => .mut

/-- Errors of PatchObjects, tagged with where they arise. -/
inductive PatchErr where
  | badOptions (msg : String)
  | apiServiceError (msg : String)
  | validatingError (msg : String)
  | mutatingError (msg : String)
  deriving DecidableEq

/-- Step a PatchObjects error arose at; none for pre-network validation. -/
def PatchErr.stepKind : PatchErr → Option StepKind
  | .badOptions _ => none
  | .apiServiceError _ => some .api
  | .validatingError _ => some .val
  | .mutatingError _ => some .mut

/-- validatePatchOptions (k8s.go lines 416-438): the patch method must be
patch or update; a failure policy without any webhook target is rejected; two
differently named webhook targets are rejected. -/
def validatePatchOptions (options : PatchOptions) : Except PatchErr Unit :=
  if ¬(options.patchMethod = "patch" ∨ options.patchMethod = "update") then
    .error (.badOptions ("invalid patch method '" ++ options.patchMethod
      ++ "', must be 'patch' or 'update'"))
  else if options.failurePolicyType ≠ ""
      ∧ options.mutatingWebhookConfigurationName = ""
      ∧ options.validatingWebhookConfigurationName = "" then
    .error (.badOptions "failurePolicy specified, but no webhook will be patched")
  else if options.mutatingWebhookConfigurationName ≠ ""
      ∧ options.validatingWebhookConfigurationName ≠ ""
      ∧ options.mutatingWebhookConfigurationName
          ≠ options.validatingWebhookConfigurationName then
    .error (.badOptions "mutating and validating webhook names must be the same")
  else
    .ok ()

/-- getWebhookName (k8s.go lines 441-447). -/
def getWebhookName (options : PatchOptions) : String :=
  if options.validatingWebhookConfigurationName ≠ "" then
    options.validatingWebhookConfigurationName
  else
    options.mutatingWebhookConfigurationName

section PatchFunctions

variable {α β γ δ : Type}

/-- patchAPIService (k8s.go lines 480-502): fetch the APIService by name,
set its CA bundle, force insecureSkipTLSVerify to false, write it back with
a full update.  A fetch failure (here: absent object) aborts with an error
and no write. -/
def patchAPIService (c : Cluster α β γ δ) (objectName : String) (ca : Bytes) :
    Cluster α β γ δ × List NetOp × Except PatchErr Unit :=
  match lookupA c.apiServices objectName with
  | none => (c, [.getAPIService], .error (.apiServiceError "error getting APIService"))
  | some svc =>
    let svc' := { svc with caBundle := some ca, insecureSkipTLSVerify := false }
    ({ c with apiServices := setA c.apiServices objectName svc' },
     [.getAPIService, .updateAPIService],
     .ok ())

/-- Entry mutation of updateValidatingWebhook (k8s.go lines 629-636) and
updateMutatingWebhook (lines 702-709): every entry gets the CA bundle, and
the failure policy exactly when a non-empty one was supplied. -/
def updateWebhookEntries (ca : Bytes) (failurePolicy : String)
    (hook : WebhookConfiguration α β γ) : WebhookConfiguration α β γ :=
  { hook with webhooks := hook.webhooks.map (fun h =>
      { h with
        clientConfig := { h.clientConfig with caBundle := some ca }
        failurePolicy :=
          if failurePolicy ≠ "" then some failurePolicy else h.failurePolicy }) }

/-- One entry of the server-side-apply document built by applyValidatingWebhook
and applyMutatingWebhook: entry name, the CA bundle, and the failure policy
only when a non-empty one was supplied. -/
structure WebhookApplyEntry where
  name : String
  caBundle : Bytes
  failurePolicy : Option String
  deriving DecidableEq

/-- Apply-document entries (k8s.go lines 593-606 and 666-679): one per entry
of the fetched configuration, carrying its name. -/
def buildApplyEntries (ca : Bytes) (failurePolicy : String)
    (hook : WebhookConfiguration α β γ) : List WebhookApplyEntry :=
  hook.webhooks.map (fun h =>
    { name := h.name
      caBundle := ca
      failurePolicy := if failurePolicy ≠ "" then some failurePolicy else none })

/-- Server-side apply of the document onto the live object: the webhooks list
is a map keyed by entry name, so each live entry matched by name receives the
asserted fields (CA bundle always, failure policy when asserted) and keeps
everything else; unmatched entries are untouched.  Prior field ownership by
the same manager is not modelled, as this tool runs once per object. -/
def mergeApplyEntries (config : List WebhookApplyEntry)
    (hook : WebhookConfiguration α β γ) : WebhookConfiguration α β γ :=
  { hook with webhooks := hook.webhooks.map (fun h =>
      match config.find? (fun a => a.name == h.name) with
      | none => h
      | some a =>
        { h with
          clientConfig := { h.clientConfig with caBundle := some a.caBundle }
          failurePolicy :=
            match a.failurePolicy with
            | some fp => some fp
            | none => h.failurePolicy }) }

/-- applyValidatingWebhook (k8s.go lines 576-618): fetch the configuration,
build the apply document and apply it. -/
def applyValidatingWebhook (c : Cluster α β γ δ) (configurationName : String)
    (ca : Bytes) (failurePolicy : String) :
    Cluster α β γ δ × List NetOp × Except PatchErr Unit :=
  match lookupA c.validating configurationName with
  | none =>
    (c, [.getValidating], .error (.validatingError "failed getting validating webhook"))
  | some hook =>
    let hook' := mergeApplyEntries (buildApplyEntries ca failurePolicy hook) hook
    ({ c with validating := setA c.validating configurationName hook' },
     [.getValidating, .applyValidating],
     .ok ())

/-- updateValidatingWebhook (k8s.go lines 620-647): fetch the configuration,
mutate every entry in place and write the whole object back. -/
def updateValidatingWebhook (c : Cluster α β γ δ) (configurationName : String)
    (ca : Bytes) (failurePolicy : String) :
    Cluster α β γ δ × List NetOp × Except PatchErr Unit :=
  match lookupA c.validating configurationName with
  | none =>
    (c, [.getValidating], .error (.validatingError "failed getting validating webhook"))
  | some hook =>
    let hook' := updateWebhookEntries ca failurePolicy hook
    ({ c with validating := setA c.validating configurationName hook' },
     [.getValidating, .updateValidating],
     .ok ())

/-- applyMutatingWebhook (k8s.go lines 649-691). -/
def applyMutatingWebhook (c : Cluster α β γ δ) (configurationName : String)
    (ca : Bytes) (failurePolicy : String) :
    Cluster α β γ δ × List NetOp × Except PatchErr Unit :=
  match lookupA c.mutating configurationName with
  | none =>
    (c, [.getMutating], .error (.mutatingError "failed getting mutating webhook"))
  | some hook =>
    let hook' := mergeApplyEntries (buildApplyEntries ca failurePolicy hook) hook
    ({ c with mutating := setA c.mutating configurationName hook' },
     [.getMutating, .applyMutating],
     .ok ())

/-- updateMutatingWebhook (k8s.go lines 693-720). -/
def updateMutatingWebhook (c : Cluster α β γ δ) (configurationName : String)
    (ca : Bytes) (failurePolicy : String) :
    Cluster α β γ δ × List NetOp × Except PatchErr Unit :=
  match lookupA c.mutating configurationName with
  | none =>
    (c, [.getMutating], .error (.mutatingError "failed getting mutating webhook"))
  | some hook =>
    let hook' := updateWebhookEntries ca failurePolicy hook
    ({ c with mutating := setA c.mutating configurationName hook' },
     [.getMutating, .updateMutating],
     .ok ())

/-- patchValidatingWebhook (k8s.go lines 543-557): with method update the
full-object update runs first; the server-side apply then runs in either
method (the dual update-then-apply path of the source). -/
def patchValidatingWebhook (c : Cluster α β γ δ) (configurationName : String)
    (ca : Bytes) (failurePolicy : String) (patchMethod : String) :
    Cluster α β γ δ × List NetOp × Except PatchErr Unit :=
  if patchMethod = "update" then
    match updateValidatingWebhook c configurationName ca failurePolicy with
    | (c₁, t₁, .error e) => (c₁, t₁, .error e)
    | (c₁, t₁, .ok ()) =>
      match applyValidatingWebhook c₁ configurationName ca failurePolicy with
      | (c₂, t₂, r) => (c₂, t₁ ++ t₂, r)
  else
    applyValidatingWebhook c configurationName ca failurePolicy

/-- patchMutatingWebhook (k8s.go lines 560-574). -/
def patchMutatingWebhook (c : Cluster α β γ δ) (configurationName : String)
    (ca : Bytes) (failurePolicy : String) (patchMethod : String) :
    Cluster α β γ δ × List NetOp × Except PatchErr Unit :=
  if patchMethod = "update" then
    match updateMutatingWebhook c configurationName ca failurePolicy with
    | (c₁, t₁, .error e) => (c₁, t₁, .error e)
    | (c₁, t₁, .ok ()) =>
      match applyMutatingWebhook c₁ configurationName ca failurePolicy with
      | (c₂, t₂, r) => (c₂, t₁ ++ t₂, r)
  else
    applyMutatingWebhook c configurationName ca failurePolicy

/-- patchWebhookConfigurations (k8s.go lines 505-540): the validating
configuration is handled first when requested, then the mutating one; the
first error aborts the rest. -/
def patchWebhookConfigurations (c : Cluster α β γ δ) (configurationName : String)
    (ca : Bytes) (failurePolicy : String)
    (patchMutating patchValidating : Bool) (patchMethod : String) :
    Cluster α β γ δ × List NetOp × Except PatchErr Unit :=
  match (if patchValidating then
      patchValidatingWebhook c configurationName ca failurePolicy patchMethod
    else (c, [], .ok ())) with
  | (c₁, t₁, .error e) => (c₁, t₁, .error e)
  | (c₁, t₁, .ok ()) =>
    if patchMutating then
      match patchMutatingWebhook c₁ configurationName ca failurePolicy patchMethod with
      | (c₂, t₂, r) => (c₂, t₁ ++ t₂, r)
    else
      (c₁, t₁, .ok ())

/-- PatchObjects (k8s.go lines 380-413): validate the options, patch the
APIService when one is named, then patch the webhook configurations when at
least one webhook kind is targeted. -/
def PatchObjects (c : Cluster α β γ δ) (options : PatchOptions) :
    Cluster α β γ δ × List NetOp × Except PatchErr Unit :=
  match validatePatchOptions options with
  | .error e => (c, [], .error e)
  | .ok () =>
    match (if options.apiServiceName ≠ "" then
        patchAPIService c options.apiServiceName options.caBundle
      else (c, [], .ok ())) with
    | (c₁, t₁, .error e) => (c₁, t₁, .error e)
    | (c₁, t₁, .ok ()) =>
      if options.mutatingWebhookConfigurationName ≠ ""
          ∨ options.validatingWebhookConfigurationName ≠ "" then
        match patchWebhookConfigurations c₁ (getWebhookName options)
            options.caBundle options.failurePolicyType
            (options.mutatingWebhookConfigurationName ≠ "")
            (options.validatingWebhookConfigurationName ≠ "")
            options.patchMethod with
        | (c₂, t₂, r) => (c₂, t₁ ++ t₂, r)
      else
        (c₁, t₁, .ok ())

end PatchFunctions

/-! ## The patch command (cmd/patch.go) -/

/-- Flags of the patch command (cmd/patch.go init, lines 130-145). -/
structure PatchConfig where
  patchFailurePolicy : String
  apiServiceName : String
  webhookName : String
  secretName : String
  caName : String
  ns : String
  patchMethod : String
  patchMutating : Bool
  patchValidating : Bool
  deriving DecidableEq

/-- Failure modes of the Patch command function. -/
inductive PatchCmdErr where
  | nothingToPatch
  | invalidFailurePolicy (msg : String)
  | getCaFailed (e : GetCaErr)
  | patchFailed (e : PatchErr)
  deriving DecidableEq

/-- Failure-policy switch of Patch (cmd/patch.go lines 50-59).  Go switch
cases do not fall through: the case bodies for the empty string and for
Ignore are empty, so the failurePolicy variable keeps its zero value (the
empty string) for both, and only the Fail case assigns it. -/
def computeFailurePolicy : String → Except String String
  | "" => .ok ""
  | "Ignore" => .ok ""
  | "Fail" => .ok "Fail"
  | s => .error ("patch-failure-policy " ++ s ++ " is not valid")

/-- Patch (cmd/patch.go lines 41-90): reject a call that patches nothing,
run the failure-policy switch, read the CA through the Patcher (whose wired
implementation ignores the caName argument, see patcherGetCaFromSecret),
build the PatchOptions with the webhook name copied to each targeted kind,
and call PatchObjects.  The nil-Patcher guard is outside the embedding since
the model Patcher is total. -/
def Patch {α β γ δ : Type} (c : Cluster α β γ δ) (store : SecretStore)
    (cfg : PatchConfig) :
    Cluster α β γ δ × List NetOp × Except PatchCmdErr Unit :=
  if cfg.patchMutating = false ∧ cfg.patchValidating = false
      ∧ cfg.apiServiceName = "" then
    (c, [], .error .nothingToPatch)
  else
    match computeFailurePolicy cfg.patchFailurePolicy with
    | .error msg => (c, [], .error (.invalidFailurePolicy msg))
    | .ok failurePolicy =>
      match patcherGetCaFromSecret cfg.caName
          (getSecretFromStore store cfg.secretName cfg.ns) with
      | .error e => (c, [], .error (.getCaFailed e))
      | .ok ca =>
        let options : PatchOptions :=
          { validatingWebhookConfigurationName :=
              if cfg.patchValidating then cfg.webhookName else ""
            mutatingWebhookConfigurationName :=
              if cfg.patchMutating then cfg.webhookName else ""
            apiServiceName := cfg.apiServiceName
            patchMethod := cfg.patchMethod
            failurePolicyType := failurePolicy
            caBundle := ca }
        match PatchObjects c options with
        | (c', tr, .error e) => (c', tr, .error (.patchFailed e))
        | (c', tr, .ok ()) => (c', tr, .ok ())

/-- One-entry validating configuration whose existing failure policy is Fail,
used to exhibit the failure-policy switch behaviour of the patch command. -/
def c1Hook : WebhookConfiguration Unit Unit Unit :=
  { name := "w"
    webhooks := [{ name := "h0", clientConfig := { caBundle := none, rest := () }
                   failurePolicy := some "Fail", rest := () }]
    rest := () }

/-- Cluster holding only the configuration c1Hook. -/
def c1Cluster : Cluster Unit Unit Unit Unit :=
  { validating := [("w", c1Hook)], mutating := [], apiServices := [] }

/-- Store holding the secret the patch command reads. -/
def c1Store : SecretStore :=
  [(("ns", "s"), { name := "s", secretType := "Opaque", data := [("ca.crt", some [1])] })]

/-- Patch invocation with --patch-failure-policy=Ignore targeting only the
validating configuration. -/
def c1Cfg : PatchConfig :=
  { patchFailurePolicy := "Ignore", apiServiceName := "", webhookName := "w"
    secretName := "s", caName := "ca", ns := "ns", patchMethod := "patch"
    patchMutating := false, patchValidating := true }

theorem lookupA_setA_self {K V : Type} [DecidableEq K]
    (m : List (K × V)) (k : K) (v : V) : lookupA (setA m k v) k = some v := by
  induction m with
  | nil => simp [setA, lookupA]
  | cons hd tl ih =>
    obtain ⟨k', v'⟩ := hd
    by_cases h : k = k'
    · simp [setA, lookupA, h]
    · simp only [setA]
      rw [if_neg h]
      simp [lookupA, h, ih]

theorem lookupA_setA_other {K V : Type} [DecidableEq K]
    (m : List (K × V)) (k k' : K) (v : V) (hne : k' ≠ k) :
    lookupA (setA m k v) k' = lookupA m k' := by
  induction m with
  | nil => simp [setA, lookupA, hne]
  | cons hd tl ih =>
    obtain ⟨k0, v0⟩ := hd
    by_cases h : k = k0
    · subst h
      simp [setA, lookupA, hne]
    · simp only [setA]
      rw [if_neg h]
      by_cases h' : k' = k0
      · simp [lookupA, h']
      · simp [lookupA, h', ih]

theorem hostSANs_foldl (parseIP : String → Option Bytes) (l : List String)
    (acc : List Bytes × List String) :
    l.foldl
      (fun acc host =>
        match parseIP host with
        | some ip => (acc.1 ++ [ip], acc.2)
        | none => (acc.1, acc.2 ++ [host]))
      acc
    = (acc.1 ++ l.filterMap parseIP,
       acc.2 ++ l.filter (fun t => (parseIP t).isNone)) := by
  induction l generalizing acc with
  | nil => simp
  | cons hd tl ih =>
    cases h : parseIP hd with
    | none => simp [List.foldl_cons, h, ih, List.filterMap_cons, List.filter_cons]
    | some ip => simp [List.foldl_cons, h, ih, List.filterMap_cons, List.filter_cons]

theorem hostSANs_eq (parseIP : String → Option Bytes) (hosts : String) :
    hostSANs parseIP hosts
    = ((splitSeqComma hosts).filterMap parseIP,
       (splitSeqComma hosts).filter (fun t => (parseIP t).isNone)) := by
  simp [hostSANs, hostSANs_foldl]

/-- C3: both certificates generated by GenerateCerts have
notBefore = now - 5 minutes, and notAfter - notBefore is exactly the span the
code calls 100 years, namely 100 * 365 days of 24 hours (part_001 lines
177-178: notAfter := notBefore.Add(100 * 365 * 24 * time.Hour)). -/
theorem generateCerts_validity_window (parseIP : String → Option Bytes)
    (now : Int) (serialCA serialLeaf : Nat) (hosts : String) :
    let certs := GenerateCerts parseIP now serialCA serialLeaf hosts
    certs.1.notBefore = now - 5 * GoTime.minute
    ∧ certs.2.notBefore = now - 5 * GoTime.minute
    ∧ certs.1.notAfter - certs.1.notBefore = 100 * 365 * 24 * GoTime.hour
    ∧ certs.2.notAfter - certs.2.notBefore = 100 * 365 * 24 * GoTime.hour := by
  refine ⟨rfl, rfl, ?_, ?_⟩ <;> simp [GenerateCerts]

/-- C8: GenerateCerts splits the host string on commas; each token that
parseIP accepts contributes its parsed value to the leaf certificate's
IP-address list, every other token (empty and malformed ones included) is
added verbatim to the SAN DNS-name list, and the CA certificate receives no
SAN entries at all. -/
theorem generateCerts_host_classification (parseIP : String → Option Bytes)
    (now : Int) (serialCA serialLeaf : Nat) (hosts : String) :
    let leaf := (GenerateCerts parseIP now serialCA serialLeaf hosts).2
    leaf.ipAddresses = (splitSeqComma hosts).filterMap parseIP
    ∧ leaf.dnsNames = (splitSeqComma hosts).filter (fun t => (parseIP t).isNone)
    ∧ (∀ t ∈ splitSeqComma hosts, parseIP t = none → t ∈ leaf.dnsNames)
    ∧ (parseIP "" = none → "" ∈ splitSeqComma hosts → "" ∈ leaf.dnsNames)
    ∧ (GenerateCerts parseIP now serialCA serialLeaf hosts).1.ipAddresses = []
    ∧ (GenerateCerts parseIP now serialCA serialLeaf hosts).1.dnsNames = [] := by
  have h := hostSANs_eq parseIP hosts
  refine ⟨?_, ?_, ?_, ?_, rfl, rfl⟩
  · simp [GenerateCerts, h]
  · simp [GenerateCerts, h]
  · intro t ht hnone
    simp [GenerateCerts, h, List.mem_filter, ht, hnone]
  · intro hempty hmem
    simp [GenerateCerts, h, List.mem_filter, hmem, hempty]

/-- Closed instance of the C8 theorem discharging its conditional parts at a
concrete parser and host string. -/
theorem generateCerts_host_classification_witness :
    let pip : String → Option Bytes :=
      fun t => if t = "10.0.0.7" then some [10, 0, 0, 7] else none
    let leaf := (GenerateCerts pip 0 1 2 "localhost,10.0.0.7,").2
    leaf.ipAddresses = [[10, 0, 0, 7]]
    ∧ leaf.dnsNames = ["localhost", ""]
    ∧ "" ∈ leaf.dnsNames := by
  intro pip leaf
  have h := generateCerts_host_classification pip 0 1 2 "localhost,10.0.0.7,"
  refine ⟨?_, ?_, ?_⟩
  · exact h.1.trans (by decide)
  · exact h.2.1.trans (by decide)
  · exact h.2.2.2.1 (by decide) (by decide)

/-- C7: GetCaFromSecret distinguishes its failure modes: an absent secret
yields exactly the ErrNoSecret signal; a present secret without the ca.crt
field yields the hard missing-key error, which is a different value from
ErrNoSecret; the field bytes are returned exactly when the secret is fetched
and carries the field. -/
theorem getCaFromSecret_failure_modes :
    GetCaFromSecret (.error .notFound) = .error .noSecret
    ∧ (∀ s : Secret, goGet s.data "ca.crt" = none →
        GetCaFromSecret (.ok s) = .error .noCaKey)
    ∧ GetCaErr.noCaKey ≠ GetCaErr.noSecret
    ∧ (∀ (s : Secret) (d : Bytes), goGet s.data "ca.crt" = some d →
        GetCaFromSecret (.ok s) = .ok d)
    ∧ (∀ (s : Secret) (d : Bytes), GetCaFromSecret (.ok s) = .ok d →
        goGet s.data "ca.crt" = some d)
    ∧ (∀ msg, GetCaFromSecret (.error (.other msg)) ≠ .error .noSecret) := by
  refine ⟨rfl, ?_, by decide, ?_, ?_, ?_⟩
  · intro s h
    simp [GetCaFromSecret, h]
  · intro s d h
    simp [GetCaFromSecret, h]
  · intro s d h
    simp only [GetCaFromSecret] at h
    cases hg : goGet s.data "ca.crt" with
    | none => rw [hg] at h; exact absurd h (by simp)
    | some v => rw [hg] at h; simpa using h
  · intro msg
    simp [GetCaFromSecret]

/-- Closed instance of the C7 theorem at concrete secrets, discharging each
conditional conjunct. -/
theorem getCaFromSecret_failure_modes_witness :
    GetCaFromSecret (.ok { name := "s", secretType := "Opaque", data := [] })
      = .error .noCaKey
    ∧ GetCaFromSecret
        (.ok { name := "s", secretType := "Opaque", data := [("ca.crt", some [7])] })
      = .ok [7] := by
  have h := getCaFromSecret_failure_modes
  exact ⟨h.2.1 _ (by decide), h.2.2.2.1 _ [7] (by decide)⟩

/-- C2 (code bug): the field key handed to the secret-read operation is
ignored.  The wired implementation always reads the fixed key ca.crt, so two
different caName values can never change the result, and with the default
flag value ca a secret that stores its CA under the field ca produces the
missing-ca.crt hard error instead of those bytes. -/
theorem patcherGetCa_ignores_field_key :
    (∀ (k₁ k₂ : String) (f : Except FetchErr Secret),
      patcherGetCaFromSecret k₁ f = patcherGetCaFromSecret k₂ f)
    ∧ patcherGetCaFromSecret "ca"
        (.ok { name := "s", secretType := "Opaque", data := [("ca", some [7])] })
      = .error .noCaKey := by
  exact ⟨fun _ _ _ => rfl, rfl⟩

theorem setA_length {K V : Type} [DecidableEq K]
    (m : List (K × V)) (k : K) (v : V) :
    (setA m k v).length
      = if (lookupA m k).isSome then m.length else m.length + 1 := by
  induction m with
  | nil => simp [setA, lookupA]
  | cons hd tl ih =>
    obtain ⟨k0, v0⟩ := hd
    by_cases h : k = k0
    · simp [setA, lookupA, h]
    · simp only [setA, if_neg h, List.length_cons, lookupA, ih]
      by_cases hs : (lookupA tl k).isSome <;> simp [hs]

/-- C10: the data map of SaveCertsToSecret is the three-entry insertion
sequence ca.crt, certName, keyName with later keys overwriting earlier ones:
the key-name entry always reads back its value, the cert-name entry survives
exactly when it differs from the key name, the ca.crt entry only when named by
neither of the caller-chosen names, and any collision among the three names
leaves the secret with fewer than three fields. -/
theorem saveSecretData_spec (certName keyName : String) (ca cert key : Bytes) :
    let m := saveSecretData certName keyName ca cert key
    goGet m keyName = some key
    ∧ goGet m certName = (if certName = keyName then some key else some cert)
    ∧ goGet m "ca.crt"
      = (if "ca.crt" = keyName then some key
         else if "ca.crt" = certName then some cert else some ca)
    ∧ ((certName = "ca.crt" ∨ keyName = "ca.crt" ∨ certName = keyName) →
        m.length < 3)
    ∧ (certName ≠ "ca.crt" → keyName ≠ "ca.crt" → certName ≠ keyName →
        m.length = 3) := by
  have lenA : (setA ([] : List (String × GoBytes)) "ca.crt" (some ca)).length = 1 := rfl
  have hB := setA_length (setA ([] : List (String × GoBytes)) "ca.crt" (some ca))
    certName (some cert)
  have hm := setA_length
    (setA (setA ([] : List (String × GoBytes)) "ca.crt" (some ca)) certName (some cert))
    keyName (some key)
  refine ⟨?_, ?_, ?_, ?_, ?_⟩
  · simp [saveSecretData, goGet, lookupA_setA_self]
  · by_cases h : certName = keyName
    · simp [saveSecretData, goGet, h, lookupA_setA_self]
    · simp only [saveSecretData, goGet, if_neg h]
      rw [lookupA_setA_other _ _ _ _ h, lookupA_setA_self]
  · by_cases hk : "ca.crt" = keyName
    · simp [saveSecretData, goGet, ← hk, lookupA_setA_self]
    · rw [if_neg hk]
      by_cases hc : "ca.crt" = certName
      · simp only [saveSecretData, goGet, if_pos hc]
        rw [lookupA_setA_other _ _ _ _ hk, ← hc, lookupA_setA_self]
      · simp only [saveSecretData, goGet, if_neg hc]
        rw [lookupA_setA_other _ _ _ _ hk, lookupA_setA_other _ _ _ _ hc]
        simp [setA, lookupA]
  · intro hcol
    simp only [saveSecretData]
    rcases hcol with h | h | h
    · have hA : (lookupA (setA ([] : List (String × GoBytes)) "ca.crt" (some ca))
          certName).isSome := by
        subst h; simp [setA, lookupA]
      rw [hm, hB, if_pos hA, lenA]
      split <;> omega
    · have hBk : (lookupA
          (setA (setA ([] : List (String × GoBytes)) "ca.crt" (some ca))
            certName (some cert)) keyName).isSome := by
        by_cases hck : keyName = certName
        · subst hck; simp [lookupA_setA_self]
        · rw [lookupA_setA_other _ _ _ _ hck]
          subst h; simp [setA, lookupA]
      rw [hm, if_pos hBk, hB, lenA]
      split <;> omega
    · have hBk : (lookupA
          (setA (setA ([] : List (String × GoBytes)) "ca.crt" (some ca))
            certName (some cert)) keyName).isSome := by
        rw [← h]; simp [lookupA_setA_self]
      rw [hm, if_pos hBk, hB, lenA]
      split <;> omega
  · intro h1 h2 h3
    have hA : lookupA (setA ([] : List (String × GoBytes)) "ca.crt" (some ca))
        certName = none := by
      simp [setA, lookupA, h1]
    have hBk : lookupA
        (setA (setA ([] : List (String × GoBytes)) "ca.crt" (some ca))
          certName (some cert)) keyName = none := by
      rw [lookupA_setA_other _ _ _ _ (fun he => h3 he.symm)]
      simp [setA, lookupA, h2]
    simp only [saveSecretData]
    rw [hm, hBk, hB, hA, lenA]
    simp

/-- Closed instance of the C10 theorem: when the caller chooses cert-name
ca.crt and key-name cert, the secret ends up with two fields and the later
values win. -/
theorem saveSecretData_spec_witness :
    (saveSecretData "ca.crt" "key" [1] [2] [3]).length < 3
    ∧ goGet (saveSecretData "ca.crt" "key" [1] [2] [3]) "ca.crt" = some [2] := by
  have h := saveSecretData_spec "ca.crt" "key" [1] [2] [3]
  refine ⟨h.2.2.2.1 (Or.inl rfl), ?_⟩
  have h3 := h.2.2.1
  rw [if_neg (by decide), if_pos rfl] at h3
  exact h3

/-- C4: create is idempotent — after any successful create run, a second run
with the same secret name and namespace writes nothing (the store is returned
unchanged), reports that the secret already exists, and succeeds. -/
theorem createCommand_idempotent (store store₁ : SecretStore)
    (cfg : CreateConfig) (gen gen' : Except String GeneratedCerts)
    (r₁ : CreateReport)
    (h : createCommand store cfg gen = (store₁, .ok r₁)) :
    createCommand store₁ cfg gen' = (store₁, .ok .secretAlreadyExists) := by
  have hca : ∃ d, getCaFromStore store₁ cfg.secretName cfg.ns = .ok d := by
    cases hval : getCaFromStore store cfg.secretName cfg.ns with
    | ok d =>
      have hst : store₁ = store := by
        simp only [createCommand, hval] at h
        exact congrArg Prod.fst h.symm
      exact ⟨d, hst ▸ hval⟩
    | error e =>
      cases e with
      | noSecret =>
        cases gen with
        | error msg => simp [createCommand, hval] at h
        | ok g =>
          cases hsv : lookupA store (cfg.ns, cfg.secretName) with
          | some s =>
            exfalso
            simp [createCommand, hval, SaveCertsToSecret, hsv] at h
          | none =>
            have hst : store₁
                = setA store (cfg.ns, cfg.secretName)
                    { name := cfg.secretName
                      secretType := cfg.secretType
                      data := saveSecretData cfg.certName cfg.keyName
                        g.ca g.cert g.key } := by
              simp only [createCommand, hval, SaveCertsToSecret, hsv] at h
              exact congrArg Prod.fst h.symm
            have hlook := lookupA_setA_self store (cfg.ns, cfg.secretName)
              ({ name := cfg.secretName
                 secretType := cfg.secretType
                 data := saveSecretData cfg.certName cfg.keyName
                   g.ca g.cert g.key } : Secret)
            have hdata := (saveSecretData_spec cfg.certName cfg.keyName
              g.ca g.cert g.key).2.2.1
            have hv : (goGet (saveSecretData cfg.certName cfg.keyName
                g.ca g.cert g.key) "ca.crt").isSome := by
              rw [hdata]
              split
              · simp
              · split <;> simp
            obtain ⟨d, hd2⟩ := Option.isSome_iff_exists.mp hv
            refine ⟨d, ?_⟩
            simp only [getCaFromStore, getSecretFromStore, hst, hlook,
              GetCaFromSecret, hd2]
      | getError msg => simp [createCommand, hval] at h
      | noCaKey => simp [createCommand, hval] at h
  obtain ⟨d, hd⟩ := hca
  simp [createCommand, hd]

/-- Closed instance of the C4 theorem: a first create on an empty store
succeeds, and rerunning it on the resulting store changes nothing and reports
that the secret already exists. -/
theorem createCommand_idempotent_witness :
    let cfg : CreateConfig :=
      { host := "localhost", secretName := "s", secretType := "Opaque"
        ns := "n", certName := "cert", keyName := "key" }
    let gen : Except String GeneratedCerts := .ok { ca := [1], cert := [2], key := [3] }
    let store₁ : SecretStore :=
      [(("n", "s"),
        { name := "s", secretType := "Opaque"
          data := [("ca.crt", some [1]), ("cert", some [2]), ("key", some [3])] })]
    createCommand store₁ cfg gen = (store₁, .ok .secretAlreadyExists) := by
  intro cfg gen store₁
  exact createCommand_idempotent [] store₁ cfg gen gen .createdNewSecret rfl

/-- C9: the full-object write-back performed in update mode replaces the
fetched configuration by one whose entries differ only in the CA bundle
(always set to the supplied bytes) and in the failure policy (set exactly
when a non-empty policy was supplied); the configuration name, its remaining
metadata, the entry count, each entry name, each entry's other client-config
fields and each entry's remaining fields are written back unchanged, for the
validating and the mutating update alike. -/
theorem updateWebhook_writeback_frame {α β γ δ : Type} (ca : Bytes) (fp : String) :
    (∀ hook : WebhookConfiguration α β γ,
      (updateWebhookEntries ca fp hook).name = hook.name
      ∧ (updateWebhookEntries ca fp hook).rest = hook.rest
      ∧ (updateWebhookEntries ca fp hook).webhooks.length = hook.webhooks.length
      ∧ ∀ (i : Nat) (hi : i < (updateWebhookEntries ca fp hook).webhooks.length)
          (hi' : i < hook.webhooks.length),
          ((updateWebhookEntries ca fp hook).webhooks.get ⟨i, hi⟩).name
            = (hook.webhooks.get ⟨i, hi'⟩).name
          ∧ ((updateWebhookEntries ca fp hook).webhooks.get ⟨i, hi⟩).rest
            = (hook.webhooks.get ⟨i, hi'⟩).rest
          ∧ ((updateWebhookEntries ca fp hook).webhooks.get ⟨i, hi⟩).clientConfig.rest
            = (hook.webhooks.get ⟨i, hi'⟩).clientConfig.rest
          ∧ ((updateWebhookEntries ca fp hook).webhooks.get ⟨i, hi⟩).clientConfig.caBundle
            = some ca
          ∧ ((updateWebhookEntries ca fp hook).webhooks.get ⟨i, hi⟩).failurePolicy
            = (if fp ≠ "" then some fp
               else (hook.webhooks.get ⟨i, hi'⟩).failurePolicy))
    ∧ (∀ (c : Cluster α β γ δ) (name : String) (hook : WebhookConfiguration α β γ),
        lookupA c.validating name = some hook →
        updateValidatingWebhook c name ca fp
          = ({ c with validating := setA c.validating name (updateWebhookEntries ca fp hook) },
             [.getValidating, .updateValidating], .ok ()))
    ∧ (∀ (c : Cluster α β γ δ) (name : String) (hook : WebhookConfiguration α β γ),
        lookupA c.mutating name = some hook →
        updateMutatingWebhook c name ca fp
          = ({ c with mutating := setA c.mutating name (updateWebhookEntries ca fp hook) },
             [.getMutating, .updateMutating], .ok ())) := by
  refine ⟨?_, ?_, ?_⟩
  · intro hook
    refine ⟨rfl, rfl, by simp [updateWebhookEntries], ?_⟩
    intro i hi hi'
    simp [updateWebhookEntries, List.get_eq_getElem, List.getElem_map]
  · intro c name hook h
    simp [updateValidatingWebhook, h]
  · intro c name hook h
    simp [updateMutatingWebhook, h]

/-- Closed instance of the C9 theorem at a one-entry configuration with an
empty supplied failure policy: the write-back sets the CA bundle, keeps the
old failure policy, and the update call carries exactly that object. -/
theorem updateWebhook_writeback_frame_witness :
    let entry : WebhookEntry Unit Unit :=
      { name := "h0", clientConfig := { caBundle := none, rest := () }
        failurePolicy := some "Ignore", rest := () }
    let hook : WebhookConfiguration Unit Unit Unit :=
      { name := "w", webhooks := [entry], rest := () }
    let c : Cluster Unit Unit Unit Unit :=
      { validating := [("w", hook)], mutating := [], apiServices := [] }
    updateValidatingWebhook c "w" [9] ""
      = ({ c with validating := setA c.validating "w" (updateWebhookEntries [9] "" hook) },
         [.getValidating, .updateValidating], .ok ())
    ∧ ((updateWebhookEntries ([9] : Bytes) "" hook).webhooks.get
        ⟨0, by decide⟩).failurePolicy = some "Ignore"
    ∧ ((updateWebhookEntries ([9] : Bytes) "" hook).webhooks.get
        ⟨0, by decide⟩).clientConfig.caBundle = some [9] := by
  intro entry hook c
  have h := updateWebhook_writeback_frame (α := Unit) (β := Unit) (γ := Unit)
    (δ := Unit) [9] ""
  refine ⟨h.2.1 c "w" hook rfl, ?_, ?_⟩
  · have h0 := (h.1 hook).2.2.2 0 (by decide) (by decide)
    exact h0.2.2.2.2.trans (by decide)
  · exact (((h.1 hook).2.2.2 0 (by decide) (by decide)).2.2.2.1)

/-- C6: a PatchObjects call naming both webhook kinds with two different
names returns an error from the pre-network validation: the cluster is
untouched and the network-operation trace is empty. -/
theorem patchObjects_conflicting_names {α β γ δ : Type} (c : Cluster α β γ δ)
    (options : PatchOptions)
    (hm : options.mutatingWebhookConfigurationName ≠ "")
    (hv : options.validatingWebhookConfigurationName ≠ "")
    (hne : options.mutatingWebhookConfigurationName
      ≠ options.validatingWebhookConfigurationName) :
    ∃ e, PatchObjects c options = (c, [], .error e) := by
  by_cases hpm : options.patchMethod = "patch" ∨ options.patchMethod = "update"
  · refine ⟨.badOptions "mutating and validating webhook names must be the same", ?_⟩
    have hval : validatePatchOptions options
        = .error (.badOptions "mutating and validating webhook names must be the same") := by
      simp only [validatePatchOptions]
      rw [if_neg (not_not_intro hpm),
        if_neg (fun hand => hm hand.2.1),
        if_pos ⟨hm, hv, hne⟩]
    simp [PatchObjects, hval]
  · refine ⟨.badOptions ("invalid patch method '" ++ options.patchMethod
      ++ "', must be 'patch' or 'update'"), ?_⟩
    have hval : validatePatchOptions options
        = .error (.badOptions ("invalid patch method '" ++ options.patchMethod
            ++ "', must be 'patch' or 'update'")) := by
      simp only [validatePatchOptions]
      rw [if_pos (by simpa using hpm)]
    simp [PatchObjects, hval]

/-- Closed instance of the C6 theorem: differing names are rejected with no
network operation even on a cluster that contains both target objects. -/
theorem patchObjects_conflicting_names_witness :
    let hook : WebhookConfiguration Unit Unit Unit :=
      { name := "a", webhooks := [], rest := () }
    let c : Cluster Unit Unit Unit Unit :=
      { validating := [("b", { hook with name := "b" })]
        mutating := [("a", hook)], apiServices := [] }
    let options : PatchOptions :=
      { validatingWebhookConfigurationName := "b"
        mutatingWebhookConfigurationName := "a"
        apiServiceName := "svc", patchMethod := "update"
        failurePolicyType := "Fail", caBundle := [1] }
    ∃ e, PatchObjects c options = (c, [], .error e) := by
  intro hook c options
  exact patchObjects_conflicting_names c options (by decide) (by decide) (by decide)

theorem mergeApply_caBundle {α β γ : Type} (ca : Bytes) (fp : String)
    (hook : WebhookConfiguration α β γ) :
    ∀ h ∈ (mergeApplyEntries (buildApplyEntries ca fp hook) hook).webhooks,
      h.clientConfig.caBundle = some ca := by
  intro h hmem
  simp only [mergeApplyEntries, List.mem_map] at hmem
  obtain ⟨e, he, heq⟩ := hmem
  subst heq
  cases hf : (buildApplyEntries ca fp hook).find? (fun a => a.name == e.name) with
  | none =>
    exfalso
    rw [List.find?_eq_none] at hf
    refine hf { name := e.name, caBundle := ca
                failurePolicy := if fp ≠ "" then some fp else none } ?_ ?_
    · simp only [buildApplyEntries, List.mem_map]
      exact ⟨e, he, rfl⟩
    · simp
  | some a =>
    have hmem' := List.mem_of_find?_eq_some hf
    simp only [buildApplyEntries, List.mem_map] at hmem'
    obtain ⟨e', _, heq'⟩ := hmem'
    simp [← heq']

theorem applyValidatingWebhook_none {α β γ δ : Type} (c : Cluster α β γ δ)
    (name : String) (ca : Bytes) (fp : String)
    (hl : lookupA c.validating name = none) :
    applyValidatingWebhook c name ca fp
      = (c, [.getValidating], .error (.validatingError "failed getting validating webhook")) := by
  simp [applyValidatingWebhook, hl]

theorem applyValidatingWebhook_some {α β γ δ : Type} (c : Cluster α β γ δ)
    (name : String) (ca : Bytes) (fp : String) (hook : WebhookConfiguration α β γ)
    (hl : lookupA c.validating name = some hook) :
    applyValidatingWebhook c name ca fp
      = ({ c with validating := setA c.validating name (mergeApplyEntries (buildApplyEntries ca fp hook) hook) },
         [.getValidating, .applyValidating], .ok ()) := by
  simp [applyValidatingWebhook, hl]

theorem applyMutatingWebhook_none {α β γ δ : Type} (c : Cluster α β γ δ)
    (name : String) (ca : Bytes) (fp : String)
    (hl : lookupA c.mutating name = none) :
    applyMutatingWebhook c name ca fp
      = (c, [.getMutating], .error (.mutatingError "failed getting mutating webhook")) := by
  simp [applyMutatingWebhook, hl]

theorem applyMutatingWebhook_some {α β γ δ : Type} (c : Cluster α β γ δ)
    (name : String) (ca : Bytes) (fp : String) (hook : WebhookConfiguration α β γ)
    (hl : lookupA c.mutating name = some hook) :
    applyMutatingWebhook c name ca fp
      = ({ c with mutating := setA c.mutating name (mergeApplyEntries (buildApplyEntries ca fp hook) hook) },
         [.getMutating, .applyMutating], .ok ()) := by
  simp [applyMutatingWebhook, hl]

theorem patchValidatingWebhook_patch {α β γ δ : Type} (c : Cluster α β γ δ)
    (name : String) (ca : Bytes) (fp method : String) (hm : method ≠ "update") :
    patchValidatingWebhook c name ca fp method = applyValidatingWebhook c name ca fp := by
  simp [patchValidatingWebhook, hm]

theorem patchValidatingWebhook_update_err {α β γ δ : Type} (c : Cluster α β γ δ)
    (name : String) (ca : Bytes) (fp method : String) (hm : method = "update")
    (hl : lookupA c.validating name = none) :
    patchValidatingWebhook c name ca fp method
      = (c, [.getValidating], .error (.validatingError "failed getting validating webhook")) := by
  subst hm
  simp [patchValidatingWebhook, updateValidatingWebhook, hl]

theorem patchValidatingWebhook_update_ok {α β γ δ : Type} (c : Cluster α β γ δ)
    (name : String) (ca : Bytes) (fp method : String)
    (hook : WebhookConfiguration α β γ) (hm : method = "update")
    (hl : lookupA c.validating name = some hook) :
    patchValidatingWebhook c name ca fp method
      = ({ c with validating := setA (setA c.validating name (updateWebhookEntries ca fp hook)) name (mergeApplyEntries (buildApplyEntries ca fp (updateWebhookEntries ca fp hook)) (updateWebhookEntries ca fp hook)) },
         [.getValidating, .updateValidating, .getValidating, .applyValidating],
         .ok ()) := by
  subst hm
  simp [patchValidatingWebhook, updateValidatingWebhook, hl, applyValidatingWebhook,
    lookupA_setA_self]

theorem patchMutatingWebhook_patch {α β γ δ : Type} (c : Cluster α β γ δ)
    (name : String) (ca : Bytes) (fp method : String) (hm : method ≠ "update") :
    patchMutatingWebhook c name ca fp method = applyMutatingWebhook c name ca fp := by
  simp [patchMutatingWebhook, hm]

theorem patchMutatingWebhook_update_err {α β γ δ : Type} (c : Cluster α β γ δ)
    (name : String) (ca : Bytes) (fp method : String) (hm : method = "update")
    (hl : lookupA c.mutating name = none) :
    patchMutatingWebhook c name ca fp method
      = (c, [.getMutating], .error (.mutatingError "failed getting mutating webhook")) := by
  subst hm
  simp [patchMutatingWebhook, updateMutatingWebhook, hl]

theorem patchMutatingWebhook_update_ok {α β γ δ : Type} (c : Cluster α β γ δ)
    (name : String) (ca : Bytes) (fp method : String)
    (hook : WebhookConfiguration α β γ) (hm : method = "update")
    (hl : lookupA c.mutating name = some hook) :
    patchMutatingWebhook c name ca fp method
      = ({ c with mutating := setA (setA c.mutating name (updateWebhookEntries ca fp hook)) name (mergeApplyEntries (buildApplyEntries ca fp (updateWebhookEntries ca fp hook)) (updateWebhookEntries ca fp hook)) },
         [.getMutating, .updateMutating, .getMutating, .applyMutating],
         .ok ()) := by
  subst hm
  simp [patchMutatingWebhook, updateMutatingWebhook, hl, applyMutatingWebhook,
    lookupA_setA_self]

theorem patchValidatingWebhook_char {α β γ δ : Type} (c : Cluster α β γ δ)
    (name : String) (ca : Bytes) (fp method : String) :
    (∀ op ∈ (patchValidatingWebhook c name ca fp method).2.1, op.kind = .val)
    ∧ (∀ e, (patchValidatingWebhook c name ca fp method).2.2 = .error e →
        e.stepKind = some .val)
    ∧ (patchValidatingWebhook c name ca fp method).1.mutating = c.mutating
    ∧ (patchValidatingWebhook c name ca fp method).1.apiServices = c.apiServices
    ∧ (.applyValidating ∈ (patchValidatingWebhook c name ca fp method).2.1 →
        ∃ hook', lookupA (patchValidatingWebhook c name ca fp method).1.validating name
            = some hook'
          ∧ ∀ h ∈ hook'.webhooks, h.clientConfig.caBundle = some ca) := by
  by_cases hm : method = "update"
  · cases hl : lookupA c.validating name with
    | none =>
      rw [patchValidatingWebhook_update_err c name ca fp method hm hl]
      refine ⟨?_, ?_, rfl, rfl, ?_⟩
      · exact (show ∀ op ∈ [NetOp.getValidating], op.kind = StepKind.val by decide)
      · intro e he
        rw [← Except.error.inj he]
        rfl
      · intro hmem
        exact @absurd (NetOp.applyValidating ∈ [NetOp.getValidating]) _ hmem (by decide)
    | some hook =>
      rw [patchValidatingWebhook_update_ok c name ca fp method hook hm hl]
      refine ⟨?_, fun e he => Except.noConfusion he, rfl, rfl, ?_⟩
      · exact (show ∀ op ∈ [NetOp.getValidating, NetOp.updateValidating,
          NetOp.getValidating, NetOp.applyValidating], op.kind = StepKind.val by decide)
      · intro _
        exact ⟨_, lookupA_setA_self _ _ _, mergeApply_caBundle ca fp _⟩
  · cases hl : lookupA c.validating name with
    | none =>
      rw [patchValidatingWebhook_patch c name ca fp method hm,
        applyValidatingWebhook_none c name ca fp hl]
      refine ⟨?_, ?_, rfl, rfl, ?_⟩
      · exact (show ∀ op ∈ [NetOp.getValidating], op.kind = StepKind.val by decide)
      · intro e he
        rw [← Except.error.inj he]
        rfl
      · intro hmem
        exact @absurd (NetOp.applyValidating ∈ [NetOp.getValidating]) _ hmem (by decide)
    | some hook =>
      rw [patchValidatingWebhook_patch c name ca fp method hm,
        applyValidatingWebhook_some c name ca fp hook hl]
      refine ⟨?_, fun e he => Except.noConfusion he, rfl, rfl, ?_⟩
      · exact (show ∀ op ∈ [NetOp.getValidating, NetOp.applyValidating],
          op.kind = StepKind.val by decide)
      · intro _
        exact ⟨_, lookupA_setA_self _ _ _, mergeApply_caBundle ca fp _⟩

theorem patchMutatingWebhook_char {α β γ δ : Type} (c : Cluster α β γ δ)
    (name : String) (ca : Bytes) (fp method : String) :
    (∀ op ∈ (patchMutatingWebhook c name ca fp method).2.1, op.kind = .mut)
    ∧ (∀ e, (patchMutatingWebhook c name ca fp method).2.2 = .error e →
        e.stepKind = some .mut)
    ∧ (patchMutatingWebhook c name ca fp method).1.validating = c.validating
    ∧ (patchMutatingWebhook c name ca fp method).1.apiServices = c.apiServices := by
  by_cases hm : method = "update"
  · cases hl : lookupA c.mutating name with
    | none =>
      rw [patchMutatingWebhook_update_err c name ca fp method hm hl]
      refine ⟨?_, ?_, rfl, rfl⟩
      · exact (show ∀ op ∈ [NetOp.getMutating], op.kind = StepKind.mut by decide)
      · intro e he
        rw [← Except.error.inj he]
        rfl
    | some hook =>
      rw [patchMutatingWebhook_update_ok c name ca fp method hook hm hl]
      exact ⟨(show ∀ op ∈ [NetOp.getMutating, NetOp.updateMutating, NetOp.getMutating,
          NetOp.applyMutating], op.kind = StepKind.mut by decide),
        fun e he => Except.noConfusion he, rfl, rfl⟩
  · cases hl : lookupA c.mutating name with
    | none =>
      rw [patchMutatingWebhook_patch c name ca fp method hm,
        applyMutatingWebhook_none c name ca fp hl]
      refine ⟨?_, ?_, rfl, rfl⟩
      · exact (show ∀ op ∈ [NetOp.getMutating], op.kind = StepKind.mut by decide)
      · intro e he
        rw [← Except.error.inj he]
        rfl
    | some hook =>
      rw [patchMutatingWebhook_patch c name ca fp method hm,
        applyMutatingWebhook_some c name ca fp hook hl]
      exact ⟨(show ∀ op ∈ [NetOp.getMutating, NetOp.applyMutating],
          op.kind = StepKind.mut by decide),
        fun e he => Except.noConfusion he, rfl, rfl⟩

theorem pwc_noval_nomut {α β γ δ : Type} (c : Cluster α β γ δ)
    (name : String) (ca : Bytes) (fp method : String) :
    patchWebhookConfigurations c name ca fp false false method = (c, [], .ok ()) := by
  simp [patchWebhookConfigurations]

theorem pwc_noval_mut {α β γ δ : Type} (c c₂ : Cluster α β γ δ)
    (name : String) (ca : Bytes) (fp method : String) (t₂ : List NetOp)
    (r₂ : Except PatchErr Unit)
    (hM : patchMutatingWebhook c name ca fp method = (c₂, t₂, r₂)) :
    patchWebhookConfigurations c name ca fp true false method = (c₂, t₂, r₂) := by
  simp [patchWebhookConfigurations, hM]

theorem pwc_val_err {α β γ δ : Type} (c c₁ : Cluster α β γ δ)
    (name : String) (ca : Bytes) (fp method : String) (t₁ : List NetOp)
    (e : PatchErr) (pm : Bool)
    (hV : patchValidatingWebhook c name ca fp method = (c₁, t₁, .error e)) :
    patchWebhookConfigurations c name ca fp pm true method = (c₁, t₁, .error e) := by
  simp [patchWebhookConfigurations, hV]

theorem pwc_val_ok_nomut {α β γ δ : Type} (c c₁ : Cluster α β γ δ)
    (name : String) (ca : Bytes) (fp method : String) (t₁ : List NetOp)
    (hV : patchValidatingWebhook c name ca fp method = (c₁, t₁, .ok ())) :
    patchWebhookConfigurations c name ca fp false true method = (c₁, t₁, .ok ()) := by
  simp [patchWebhookConfigurations, hV]

theorem pwc_val_ok_mut {α β γ δ : Type} (c c₁ c₂ : Cluster α β γ δ)
    (name : String) (ca : Bytes) (fp method : String) (t₁ t₂ : List NetOp)
    (r₂ : Except PatchErr Unit)
    (hV : patchValidatingWebhook c name ca fp method = (c₁, t₁, .ok ()))
    (hM : patchMutatingWebhook c₁ name ca fp method = (c₂, t₂, r₂)) :
    patchWebhookConfigurations c name ca fp true true method = (c₂, t₁ ++ t₂, r₂) := by
  simp [patchWebhookConfigurations, hV, hM]

theorem patchWebhookConfigurations_char {α β γ δ : Type} (c : Cluster α β γ δ)
    (name : String) (ca : Bytes) (fp : String) (pm pv : Bool) (method : String) :
    ∃ tV tM,
      (patchWebhookConfigurations c name ca fp pm pv method).2.1 = tV ++ tM
      ∧ (∀ op ∈ tV, op.kind = .val)
      ∧ (∀ op ∈ tM, op.kind = .mut)
      ∧ (∀ e, (patchWebhookConfigurations c name ca fp pm pv method).2.2 = .error e →
          (e.stepKind = some .val ∨ e.stepKind = some .mut)
          ∧ (e.stepKind = some .val → tM = []))
      ∧ (patchWebhookConfigurations c name ca fp pm pv method).1.apiServices
          = c.apiServices
      ∧ (.applyValidating ∈ (patchWebhookConfigurations c name ca fp pm pv method).2.1 →
          ∃ hook', lookupA (patchWebhookConfigurations c name ca fp pm pv method).1.validating
              name = some hook'
            ∧ ∀ h ∈ hook'.webhooks, h.clientConfig.caBundle = some ca) := by
  cases pv with
  | false =>
    cases pm with
    | false =>
      rw [pwc_noval_nomut c name ca fp method]
      exact ⟨[], [], rfl, by decide, by decide, fun e he => Except.noConfusion he, rfl,
        fun hmem => @absurd (NetOp.applyValidating ∈ ([] : List NetOp)) _ hmem (by decide)⟩
    | true =>
      have M := patchMutatingWebhook_char c name ca fp method
      rcases hM : patchMutatingWebhook c name ca fp method with ⟨c₂, t₂, r₂⟩
      rw [hM] at M
      rw [pwc_noval_mut c c₂ name ca fp method t₂ r₂ hM]
      refine ⟨[], t₂, rfl, by decide, M.1, ?_, M.2.2.2, ?_⟩
      · intro e he
        exact ⟨Or.inr (M.2.1 e he), fun hv =>
          absurd ((M.2.1 e he).symm.trans hv) (by decide)⟩
      · intro hmem
        exact absurd (M.1 _ hmem) (by decide)
  | true =>
    have V := patchValidatingWebhook_char c name ca fp method
    rcases hV : patchValidatingWebhook c name ca fp method with ⟨c₁, t₁, r₁⟩
    rw [hV] at V
    cases r₁ with
    | error e0 =>
      rw [pwc_val_err c c₁ name ca fp method t₁ e0 pm hV]
      refine ⟨t₁, [], by simp, V.1, by decide, ?_, V.2.2.2.1, V.2.2.2.2⟩
      intro e he
      rw [← Except.error.inj he]
      exact ⟨Or.inl (V.2.1 e0 rfl), fun _ => rfl⟩
    | ok u =>
      cases u
      cases pm with
      | false =>
        rw [pwc_val_ok_nomut c c₁ name ca fp method t₁ hV]
        exact ⟨t₁, [], by simp, V.1, by decide, fun e he => Except.noConfusion he,
          V.2.2.2.1, V.2.2.2.2⟩
      | true =>
        have M := patchMutatingWebhook_char c₁ name ca fp method
        rcases hM : patchMutatingWebhook c₁ name ca fp method with ⟨c₂, t₂, r₂⟩
        rw [hM] at M
        rw [pwc_val_ok_mut c c₁ c₂ name ca fp method t₁ t₂ r₂ hV hM]
        refine ⟨t₁, t₂, rfl, V.1, M.1, ?_, ?_, ?_⟩
        · intro e he
          exact ⟨Or.inr (M.2.1 e he), fun hv =>
            absurd ((M.2.1 e he).symm.trans hv) (by decide)⟩
        · exact Eq.trans M.2.2.2 V.2.2.2.1
        · intro hmem
          rcases List.mem_append.mp hmem with h | h
          · obtain ⟨hook', hlk, hca⟩ := V.2.2.2.2 h
            refine ⟨hook', ?_, hca⟩
            rw [show c₂.validating = c₁.validating from M.2.2.1]
            exact hlk
          · exact absurd (M.1 _ h) (by decide)

theorem po_validate_err {α β γ δ : Type} (c : Cluster α β γ δ)
    (options : PatchOptions) (e : PatchErr)
    (h : validatePatchOptions options = .error e) :
    PatchObjects c options = (c, [], .error e) := by
  simp [PatchObjects, h]

theorem po_api_err {α β γ δ : Type} (c : Cluster α β γ δ)
    (options : PatchOptions)
    (h : validatePatchOptions options = .ok ())
    (hapi : options.apiServiceName ≠ "")
    (hl : lookupA c.apiServices options.apiServiceName = none) :
    PatchObjects c options
      = (c, [.getAPIService], .error (.apiServiceError "error getting APIService")) := by
  simp [PatchObjects, h, hapi, patchAPIService, hl]

theorem po_api_ok_nowh {α β γ δ : Type} (c : Cluster α β γ δ)
    (options : PatchOptions) (svc : APIService δ)
    (h : validatePatchOptions options = .ok ())
    (hapi : options.apiServiceName ≠ "")
    (hl : lookupA c.apiServices options.apiServiceName = some svc)
    (hwh : ¬(options.mutatingWebhookConfigurationName ≠ ""
      ∨ options.validatingWebhookConfigurationName ≠ "")) :
    PatchObjects c options
      = ({ c with apiServices := setA c.apiServices options.apiServiceName { svc with caBundle := some options.caBundle, insecureSkipTLSVerify := false } },
         [.getAPIService, .updateAPIService], .ok ()) := by
  simp [PatchObjects, h, hapi, patchAPIService, hl, hwh]

theorem po_api_ok_wh {α β γ δ : Type} (c cW : Cluster α β γ δ)
    (options : PatchOptions) (svc : APIService δ) (tW : List NetOp)
    (rW : Except PatchErr Unit)
    (h : validatePatchOptions options = .ok ())
    (hapi : options.apiServiceName ≠ "")
    (hl : lookupA c.apiServices options.apiServiceName = some svc)
    (hwh : options.mutatingWebhookConfigurationName ≠ ""
      ∨ options.validatingWebhookConfigurationName ≠ "")
    (hW : patchWebhookConfigurations { c with apiServices := setA c.apiServices options.apiServiceName { svc with caBundle := some options.caBundle, insecureSkipTLSVerify := false } } (getWebhookName options) options.caBundle options.failurePolicyType (!decide (options.mutatingWebhookConfigurationName = "")) (!decide (options.validatingWebhookConfigurationName = "")) options.patchMethod = (cW, tW, rW)) :
    PatchObjects c options = (cW, [.getAPIService, .updateAPIService] ++ tW, rW) := by
  simp [PatchObjects, h, hapi, patchAPIService, hl, hwh, hW]

theorem po_noapi_wh {α β γ δ : Type} (c cW : Cluster α β γ δ)
    (options : PatchOptions) (tW : List NetOp) (rW : Except PatchErr Unit)
    (h : validatePatchOptions options = .ok ())
    (hapi : ¬options.apiServiceName ≠ "")
    (hwh : options.mutatingWebhookConfigurationName ≠ ""
      ∨ options.validatingWebhookConfigurationName ≠ "")
    (hW : patchWebhookConfigurations c (getWebhookName options) options.caBundle options.failurePolicyType (!decide (options.mutatingWebhookConfigurationName = "")) (!decide (options.validatingWebhookConfigurationName = "")) options.patchMethod = (cW, tW, rW)) :
    PatchObjects c options = (cW, tW, rW) := by
  simp [PatchObjects, h, hapi, hwh, hW]

theorem po_noapi_nowh {α β γ δ : Type} (c : Cluster α β γ δ)
    (options : PatchOptions)
    (h : validatePatchOptions options = .ok ())
    (hapi : ¬options.apiServiceName ≠ "")
    (hwh : ¬(options.mutatingWebhookConfigurationName ≠ ""
      ∨ options.validatingWebhookConfigurationName ≠ "")) :
    PatchObjects c options = (c, [], .ok ()) := by
  simp [PatchObjects, h, hapi, hwh]

/-- C5: in every PatchObjects run the network-operation trace splits into an
APIService segment, then a validating-webhook segment, then a
mutating-webhook segment, so the APIService patch precedes every webhook
patch and the validating patch precedes the mutating one; an error arising at
the APIService step leaves both webhook segments empty and an error arising
at the validating step leaves the mutating segment empty (the first failing
step aborts the rest); and a completed APIService update or validating apply
is still visible in the final cluster whatever happened afterwards (applied
steps are not undone). -/
theorem patchObjects_sequencing {α β γ δ : Type} (c : Cluster α β γ δ)
    (options : PatchOptions) :
    ∃ t₁ t₂ t₃,
      (PatchObjects c options).2.1 = t₁ ++ t₂ ++ t₃
      ∧ (∀ op ∈ t₁, op.kind = .api)
      ∧ (∀ op ∈ t₂, op.kind = .val)
      ∧ (∀ op ∈ t₃, op.kind = .mut)
      ∧ (∀ e, (PatchObjects c options).2.2 = .error e →
          (e.stepKind = some .api → t₂ = [] ∧ t₃ = [])
          ∧ (e.stepKind = some .val → t₃ = []))
      ∧ (.updateAPIService ∈ (PatchObjects c options).2.1 →
          ∃ svc, lookupA (PatchObjects c options).1.apiServices options.apiServiceName
              = some svc
            ∧ svc.caBundle = some options.caBundle
            ∧ svc.insecureSkipTLSVerify = false)
      ∧ (.applyValidating ∈ (PatchObjects c options).2.1 →
          ∃ hook, lookupA (PatchObjects c options).1.validating (getWebhookName options)
              = some hook
            ∧ ∀ h ∈ hook.webhooks, h.clientConfig.caBundle = some options.caBundle) := by
  cases hval : validatePatchOptions options with
  | error e0 =>
    rw [po_validate_err c options e0 hval]
    refine ⟨[], [], [], rfl, by decide, by decide, by decide, ?_,
      fun hmem => @absurd (NetOp.updateAPIService ∈ ([] : List NetOp)) _ hmem (by decide),
      fun hmem => @absurd (NetOp.applyValidating ∈ ([] : List NetOp)) _ hmem (by decide)⟩
    intro e _
    exact ⟨fun _ => ⟨rfl, rfl⟩, fun _ => rfl⟩
  | ok u0 =>
    cases u0
    by_cases hapi : options.apiServiceName ≠ ""
    · cases hl : lookupA c.apiServices options.apiServiceName with
      | none =>
        rw [po_api_err c options hval hapi hl]
        refine ⟨[.getAPIService], [], [], rfl, by decide, by decide, by decide, ?_,
          fun hmem => @absurd (NetOp.updateAPIService ∈ [NetOp.getAPIService]) _ hmem (by decide),
          fun hmem => @absurd (NetOp.applyValidating ∈ [NetOp.getAPIService]) _ hmem (by decide)⟩
        intro e he
        rw [← Except.error.inj he]
        exact ⟨fun _ => ⟨rfl, rfl⟩, fun hv => absurd hv (by decide)⟩
      | some svc =>
        by_cases hwh : options.mutatingWebhookConfigurationName ≠ ""
            ∨ options.validatingWebhookConfigurationName ≠ ""
        · have W := patchWebhookConfigurations_char
            { c with apiServices := setA c.apiServices options.apiServiceName { svc with caBundle := some options.caBundle, insecureSkipTLSVerify := false } }
            (getWebhookName options) options.caBundle options.failurePolicyType
            (!decide (options.mutatingWebhookConfigurationName = ""))
            (!decide (options.validatingWebhookConfigurationName = ""))
            options.patchMethod
          rcases hW : patchWebhookConfigurations
            { c with apiServices := setA c.apiServices options.apiServiceName { svc with caBundle := some options.caBundle, insecureSkipTLSVerify := false } }
            (getWebhookName options) options.caBundle options.failurePolicyType
            (!decide (options.mutatingWebhookConfigurationName = ""))
            (!decide (options.validatingWebhookConfigurationName = ""))
            options.patchMethod with ⟨cW, tW, rW⟩
          rw [hW] at W
          obtain ⟨tV, tM, htr, hkV, hkM, herr, hpres, heffV⟩ := W
          rw [po_api_ok_wh c cW options svc tW rW hval hapi hl hwh hW]
          refine ⟨[.getAPIService, .updateAPIService], tV, tM, ?_, by decide, hkV, hkM,
            ?_, ?_, ?_⟩
          · show [NetOp.getAPIService, NetOp.updateAPIService] ++ tW = _
            rw [show tW = tV ++ tM from htr, List.append_assoc]
          · intro e he
            obtain ⟨hor, hv⟩ := herr e he
            refine ⟨fun ha => ?_, hv⟩
            rcases hor with hk | hk <;> (rw [ha] at hk; exact absurd hk (by decide))
          · intro _
            refine ⟨{ svc with caBundle := some options.caBundle, insecureSkipTLSVerify := false }, ?_, rfl, rfl⟩
            rw [show cW.apiServices = _ from hpres]
            exact lookupA_setA_self _ _ _
          · intro hmem
            rcases List.mem_append.mp hmem with hmem | hmem
            · exact absurd hmem (by decide)
            · exact heffV hmem
        · rw [po_api_ok_nowh c options svc hval hapi hl hwh]
          refine ⟨[.getAPIService, .updateAPIService], [], [], by simp, by decide,
            by decide, by decide, fun e he => Except.noConfusion he, ?_,
            fun hmem => @absurd
              (NetOp.applyValidating ∈ [NetOp.getAPIService, NetOp.updateAPIService])
              _ hmem (by decide)⟩
          intro _
          exact ⟨_, lookupA_setA_self _ _ _, rfl, rfl⟩
    · by_cases hwh : options.mutatingWebhookConfigurationName ≠ ""
          ∨ options.validatingWebhookConfigurationName ≠ ""
      · have W := patchWebhookConfigurations_char c
          (getWebhookName options) options.caBundle options.failurePolicyType
          (!decide (options.mutatingWebhookConfigurationName = ""))
          (!decide (options.validatingWebhookConfigurationName = ""))
          options.patchMethod
        rcases hW : patchWebhookConfigurations c
          (getWebhookName options) options.caBundle options.failurePolicyType
          (!decide (options.mutatingWebhookConfigurationName = ""))
          (!decide (options.validatingWebhookConfigurationName = ""))
          options.patchMethod with ⟨cW, tW, rW⟩
        rw [hW] at W
        obtain ⟨tV, tM, htr, hkV, hkM, herr, hpres, heffV⟩ := W
        rw [po_noapi_wh c cW options tW rW hval hapi hwh hW]
        refine ⟨[], tV, tM, ?_, by decide, hkV, hkM, ?_, ?_, ?_⟩
        · show tW = _
          rw [show tW = tV ++ tM from htr, List.nil_append]
        · intro e he
          obtain ⟨hor, hv⟩ := herr e he
          refine ⟨fun ha => ?_, hv⟩
          rcases hor with hk | hk <;> (rw [ha] at hk; exact absurd hk (by decide))
        · intro hmem
          have hmem' : NetOp.updateAPIService ∈ tV ++ tM := by
            rw [← htr]; exact hmem
          rcases List.mem_append.mp hmem' with hk | hk
          · exact absurd (hkV _ hk) (by decide)
          · exact absurd (hkM _ hk) (by decide)
        · intro hmem
          exact heffV hmem
      · rw [po_noapi_nowh c options hval hapi hwh]
        exact ⟨[], [], [], rfl, by decide, by decide, by decide,
          fun e he => Except.noConfusion he,
          fun hmem => @absurd (NetOp.updateAPIService ∈ ([] : List NetOp)) _ hmem (by decide),
          fun hmem => @absurd (NetOp.applyValidating ∈ ([] : List NetOp)) _ hmem (by decide)⟩

/-- Closed instance of the C5 theorem at a concrete run in which the
APIService and validating patches succeed and the mutating fetch fails:
the trace shows the ordering and the abort after the mutating Get. -/
theorem patchObjects_sequencing_witness :
    let hook : WebhookConfiguration Unit Unit Unit :=
      { name := "w"
        webhooks := [{ name := "h0", clientConfig := { caBundle := none, rest := () }
                       failurePolicy := none, rest := () }]
        rest := () }
    let c : Cluster Unit Unit Unit Unit :=
      { validating := [("w", hook)], mutating := []
        apiServices := [("svc", { caBundle := none, insecureSkipTLSVerify := true, rest := () })] }
    let options : PatchOptions :=
      { validatingWebhookConfigurationName := "w"
        mutatingWebhookConfigurationName := "w"
        apiServiceName := "svc", patchMethod := "patch"
        failurePolicyType := "", caBundle := [5] }
    (PatchObjects c options).2.1
      = [.getAPIService, .updateAPIService, .getValidating, .applyValidating, .getMutating]
    ∧ ∃ t₁ t₂ t₃,
        (PatchObjects c options).2.1 = t₁ ++ t₂ ++ t₃
        ∧ (∀ op ∈ t₁, op.kind = .api)
        ∧ (∀ op ∈ t₂, op.kind = .val)
        ∧ (∀ op ∈ t₃, op.kind = .mut)
        ∧ (∀ e, (PatchObjects c options).2.2 = .error e →
            (e.stepKind = some .api → t₂ = [] ∧ t₃ = [])
            ∧ (e.stepKind = some .val → t₃ = []))
        ∧ (.updateAPIService ∈ (PatchObjects c options).2.1 →
            ∃ svc, lookupA (PatchObjects c options).1.apiServices options.apiServiceName
                = some svc
              ∧ svc.caBundle = some options.caBundle
              ∧ svc.insecureSkipTLSVerify = false)
        ∧ (.applyValidating ∈ (PatchObjects c options).2.1 →
            ∃ hook', lookupA (PatchObjects c options).1.validating (getWebhookName options)
                = some hook'
              ∧ ∀ h ∈ hook'.webhooks, h.clientConfig.caBundle = some options.caBundle) := by
  intro hook c options
  exact ⟨by decide, patchObjects_sequencing c options⟩

/-- C1 (code bug): the failure-policy switch of the patch command assigns the
policy variable only in its Fail case; the Ignore case body is empty and, Go
switch cases not falling through, an invocation supplying Ignore proceeds
with an empty failure policy.  On a concrete run the command succeeds but the
patched entry keeps its previous Fail policy instead of the supplied Ignore:
only the CA bundle changes. -/
theorem patch_failure_policy_ignore_dropped :
    computeFailurePolicy "Ignore" = .ok ""
    ∧ computeFailurePolicy "Fail" = .ok "Fail"
    ∧ (Patch c1Cluster c1Store c1Cfg).2.2 = .ok ()
    ∧ lookupA (Patch c1Cluster c1Store c1Cfg).1.validating "w"
      = some { name := "w"
               webhooks := [{ name := "h0"
                              clientConfig := { caBundle := some [1], rest := () }
                              failurePolicy := some "Fail", rest := () }]
               rest := () }
    ∧ (∀ hook' ∈ (lookupA (Patch c1Cluster c1Store c1Cfg).1.validating "w"),
        ∀ h ∈ hook'.webhooks, h.failurePolicy ≠ some "Ignore") := by
  refine ⟨rfl, rfl, rfl, by decide, by decide⟩

end KubeWebhookCertgen
